import Mathlib

/-!
Verification of the flexible_bft repository: a HotStuff-style BFT
replicated-state-machine core (`core/node.py`, `core/utils.py`,
`core/learner.py`, `app.py`) together with the legacy simplified replica
(`node.py`, `utils.py`, `learner.py`).

The Python code is shallowly embedded: dataclasses become structures,
Python dicts become insertion-ordered association lists, handlers become
pure state-transition functions returning the new state and the list of
outputs (network sends, broadcasts, emitted events).  Ed25519 signing and
verification are oracles passed in as parameters (the handlers only branch
on the boolean result of verification, exactly as the Python code does).
SHA-256 is implemented concretely so that block-id hashing (`Block.__post_init__`)
is computed bit-exactly.
-/

set_option maxRecDepth 100000

namespace FlexibleBFT

/-! ## SHA-256 (FIPS 180-4), executable, over byte lists -/

/-- Right rotation of a 32-bit word. -/
def rotr32 (w n : Nat) : Nat :=
  ((n >>> w) ||| (n <<< (32 - w))) &&& 0xffffffff

/-- The 64 SHA-256 round constants (FIPS 180-4 §4.2.2, here in decimal). -/
def shaK : List Nat :=
  [1116352408, 1899447441, 3049323471, 3921009573, 961987163, 1508970993,
   2453635748, 2870763221, 3624381080, 310598401, 607225278, 1426881987,
   1925078388, 2162078206, 2614888103, 3248222580, 3835390401, 4022224774,
   264347078, 604807628, 770255983, 1249150122, 1555081692, 1996064986,
   2554220882, 2821834349, 2952996808, 3210313671, 3336571891, 3584528711,
   113926993, 338241895, 666307205, 773529912, 1294757372, 1396182291,
   1695183700, 1986661051, 2177026350, 2456956037, 2730485921, 2820302411,
   3259730800, 3345764771, 3516065817, 3600352804, 4094571909, 275423344,
   430227734, 506948616, 659060556, 883997877, 958139571, 1322822218,
   1537002063, 1747873779, 1955562222, 2024104815, 2227730452, 2361852424,
   2428436474, 2756734187, 3204031479, 3329325298]

/-- SHA-256 initial hash value (FIPS 180-4 §5.3.3, in decimal). -/
def shaH0 : List Nat :=
  [1779033703, 3144134277, 1013904242, 2773480762,
   1359893119, 2600822924, 528734635, 1541459225]

/-- Big-endian byte rendering of `v` on `n` bytes. -/
def toBytesBE (n v : Nat) : List Nat :=
  (List.range n).map (fun i => (v >>> (8 * (n - 1 - i))) &&& 0xff)

/-- SHA-256 padding: append 0x80, zero bytes to 56 mod 64, then the
bit length on 8 big-endian bytes. -/
def shaPad (msg : List Nat) : List Nat :=
  let r := (msg.length + 1) % 64
  let k := (120 - r) % 64
  msg ++ [0x80] ++ List.replicate k 0 ++ toBytesBE 8 (msg.length * 8)

/-- Split a (padded) byte list into 64-byte chunks. -/
def shaChunks (l : List Nat) : List (List Nat) :=
  (List.range (l.length / 64)).map (fun i => (l.drop (64 * i)).take 64)

/-- The 16 initial 32-bit big-endian words of a 64-byte chunk. -/
def chunkWords (c : List Nat) : List Nat :=
  (List.range 16).map (fun i =>
    (c.getD (4 * i) 0) <<< 24 ||| (c.getD (4 * i + 1) 0) <<< 16 |||
    (c.getD (4 * i + 2) 0) <<< 8 ||| (c.getD (4 * i + 3) 0))

/-- One message-schedule extension step: append word `W[i]` for `i = ws.length`. -/
def schedStep (ws : List Nat) : List Nat :=
  let i := ws.length
  let w15 := ws.getD (i - 15) 0
  let w2 := ws.getD (i - 2) 0
  let s0 := (rotr32 7 w15) ^^^ (rotr32 18 w15) ^^^ (w15 >>> 3)
  let s1 := (rotr32 17 w2) ^^^ (rotr32 19 w2) ^^^ (w2 >>> 10)
  ws ++ [(ws.getD (i - 16) 0 + s0 + ws.getD (i - 7) 0 + s1) &&& 0xffffffff]

/-- Extend the 16-word schedule to 64 words. -/
def schedule (ws : List Nat) : List Nat :=
  (List.range 48).foldl (fun acc _ => schedStep acc) ws

/-- One SHA-256 compression round; the running state is the list
`[a, b, c, d, e, f, g, h]`. -/
def shaRound (w : List Nat) (st : List Nat) (t : Nat) : List Nat :=
  let a := st.getD 0 0
  let b := st.getD 1 0
  let c := st.getD 2 0
  let d := st.getD 3 0
  let e := st.getD 4 0
  let f := st.getD 5 0
  let g := st.getD 6 0
  let h := st.getD 7 0
  let s1 := (rotr32 6 e) ^^^ (rotr32 11 e) ^^^ (rotr32 25 e)
  let ch := (e &&& f) ^^^ ((e ^^^ 0xffffffff) &&& g)
  let t1 := (h + s1 + ch + shaK.getD t 0 + w.getD t 0) &&& 0xffffffff
  let s0 := (rotr32 2 a) ^^^ (rotr32 13 a) ^^^ (rotr32 22 a)
  let mj := (a &&& b) ||| (a &&& c) ||| (b &&& c)
  let t2 := (s0 + mj) &&& 0xffffffff
  [(t1 + t2) &&& 0xffffffff, a, b, c, (d + t1) &&& 0xffffffff, e, f, g]

/-- Compress one 64-byte chunk into the running hash `hs`. -/
def shaCompress (hs : List Nat) (c : List Nat) : List Nat :=
  let w := schedule (chunkWords c)
  let st := (List.range 64).foldl (shaRound w) hs
  (List.range 8).map (fun i => (hs.getD i 0 + st.getD i 0) &&& 0xffffffff)

/-- SHA-256 of a byte list: the eight 32-bit words of the digest. -/
def sha256Words (msg : List Nat) : List Nat :=
  (shaChunks (shaPad msg)).foldl shaCompress shaH0

/-- The lower-case hexadecimal digit character for a nibble. -/
def hexChar (n : Nat) : Char :=
  if n < 10 then Char.ofNat (48 + n) else Char.ofNat (87 + n)

/-- Eight lower-case hex characters of a 32-bit word, most significant first. -/
def wordHex (w : Nat) : List Char :=
  (List.range 8).map (fun i => hexChar ((w >>> (4 * (7 - i))) &&& 0xf))

/-- Byte encoding of a string; for the ASCII strings this repository
hashes it coincides with Python's `str.encode()` (UTF-8). -/
def strBytes (s : String) : List Nat :=
  s.data.map Char.toNat

/-- The lower-case hex digest of SHA-256 of a string, as produced by
Python's `hashlib.sha256(...).hexdigest()`. -/
def sha256hex (s : String) : String :=
  String.mk ((sha256Words (strBytes s)).flatMap wordHex)

example : sha256hex "abc"
    = "ba7816bf8f01cfea414140de5dae2223b00361a396177a9cb410ff61f20015ad" := by decide

/-! ## Wire types (core/utils.py; utils.py has the same Block shape) -/

/-- Python rendering of an optional string inside an f-string: `None`
renders as the literal string "None", a string renders as itself. -/
def pyOptStr : Option String → String
  | none => "None"
  | some s => s

/-- Block-id hashing from `Block.__post_init__`: the SHA-256 hex digest of
"{height}:{parent_id}:{proposer}:{payload}:{view}:{timestamp}". -/
def blockIdOf (height : Nat) (parent_id : Option String) (proposer payload : String)
    (view timestamp : Nat) : String :=
  sha256hex (toString height ++ ":" ++ pyOptStr parent_id ++ ":" ++ proposer ++ ":" ++
    payload ++ ":" ++ toString view ++ ":" ++ toString timestamp)

/-- The Block dataclass. `id` is an explicit field because messages carry
already-constructed blocks; `Block.make` below computes it the way
`__post_init__` does. -/
structure Block where
  height : Nat
  parent_id : Option String
  proposer : String
  payload : String
  view : Nat
  justify_qc_id : Option String
  timestamp : Nat
  id : String
deriving DecidableEq, Repr

/-- Constructing a Block as the Python dataclass does: `id` is derived from
the content fields by `__post_init__` (it does not cover `justify_qc_id`). -/
def Block.make (height : Nat) (parent_id : Option String) (proposer payload : String)
    (view : Nat) (justify : Option String) (timestamp : Nat) : Block :=
  { height := height, parent_id := parent_id, proposer := proposer, payload := payload,
    view := view, justify_qc_id := justify, timestamp := timestamp,
    id := blockIdOf height parent_id proposer payload view timestamp }

/-- The Vote dataclass; `sig` is the Ed25519 signature, kept abstract as a
string. -/
structure Vote where
  block_id : String
  voter : String
  view : Nat
  sig : String
deriving DecidableEq, Repr

/-- The QC dataclass of core/utils.py. -/
structure QC where
  block_id : String
  signer_ids : List String
  signatures : List String
  view : Nat
deriving DecidableEq, Repr

/-- QC.id() from core/utils.py: SHA-256 over the concatenation of the
block id, the comma-joined signer ids, the decimal view, and the
signatures in order (sequential `h.update` calls hash the concatenation). -/
def qcId (qc : QC) : String :=
  sha256hex (qc.block_id ++ String.intercalate "," qc.signer_ids ++ toString qc.view ++
    String.join qc.signatures)

/-! ## Insertion-ordered dictionaries (Python dict semantics) -/

/-- Lookup in an insertion-ordered association list. -/
def dictGet {β : Type} : List (String × β) → String → Option β
  | [], _ => none
  | e :: rest, k => if e.1 = k then some e.2 else dictGet rest k

/-- Update-or-append, keeping the original position of an existing key
(Python dict assignment semantics). -/
def dictSet {β : Type} : List (String × β) → String → β → List (String × β)
  | [], k, v => [(k, v)]
  | e :: rest, k, v => if e.1 = k then (k, v) :: rest else e :: dictSet rest k v

/-- Lookup for Nat-keyed dicts (views). -/
def dictGetN {β : Type} : List (Nat × β) → Nat → Option β
  | [], _ => none
  | e :: rest, k => if e.1 = k then some e.2 else dictGetN rest k

/-- Update-or-append for Nat-keyed dicts. -/
def dictSetN {β : Type} : List (Nat × β) → Nat → β → List (Nat × β)
  | [], k, v => [(k, v)]
  | e :: rest, k, v => if e.1 = k then (k, v) :: rest else e :: dictSetN rest k v

/-- Python truthiness of an optional string: `None` and `""` are falsy. -/
def truthyOptStr : Option String → Bool
  | none => false
  | some s => !s.isEmpty

/-! ## Replica model (core/node.py) -/

/-- Constructor-time parameters of a core Replica.  The Ed25519 oracle
functions stand for `ed25519_verify`/`ed25519_sign`: the handlers only
branch on verification results, exactly as the Python code does. -/
structure RParams where
  node_id : String
  sk : String
  all_ids : List String
  pubkeys : List (String × String)
  f : Nat
  qc_threshold : Nat
  is_byzantine : Bool
  verify : String → String → String → Bool
  sign : String → String → String

/-- qc_threshold resolution in Replica.__init__: the explicit value when
given, else 2f+1. -/
def resolveThreshold (q : Option Nat) (f : Nat) : Nat :=
  q.getD (2 * f + 1)

/-- leader_func: all_ids[view % len(all_ids)]. -/
def leaderOf (ids : List String) (view : Nat) : String :=
  ids.getD (view % ids.length) ""

/-- Mutable state of a core Replica. -/
structure RState where
  blocks : List (String × Block)
  high_qc : Option QC
  locked_qc : Option QC
  votes_collected : List (String × List Vote)
  voted_in_view : List (Nat × String)
  committed : List String
  current_view : Nat
  newview_buffer : List (Nat × List QC)
deriving DecidableEq, Repr

/-- Replica state right after __init__. -/
def initState : RState :=
  { blocks := [], high_qc := none, locked_qc := none, votes_collected := [],
    voted_in_view := [], committed := [], current_view := 0, newview_buffer := [] }

/-- Events emitted through the `emit` callback, with the payload fields
each call site includes. -/
inductive Event where
  | errorEv (err : String)
  | voteSent (view : Nat) (block_id leader : String)
  | voteRcvd (view : Nat) (block_id voter : String) (count : Nat)
  | qcFormed (view : Nat) (block_id : String) (sigs : Nat)
  | commitEv (block_id : String) (height : Nat) (proposer : String)
  | proposedEv (view : Nat) (block_id : String) (height : Nat) (parent_id : Option String)
  | timeoutEv (view : Nat)
  | learnerFast (name block_id : String) (sigs : Nat)
  | learnerSafe (name block_id : String) (sigs : Nat)
deriving DecidableEq, Repr

/-- The tagged message envelope. -/
inductive Msg where
  | propose (sender : String) (view : Nat) (block : Block)
  | voteMsg (sender : String) (vote : Vote)
  | qcMsg (sender : String) (qc : QC)
  | newview (sender : String) (view : Nat) (high_qc : Option QC)
deriving DecidableEq, Repr

/-- Observable outputs of a handler: unicast sends, broadcasts, events. -/
inductive Out where
  | send (dst : String) (m : Msg)
  | bcast (m : Msg)
  | event (e : Event)
deriving DecidableEq, Repr

/-- The parent walk of Replica._extends_locked: from `cur`, at most `fuel`
executions of the while-loop body (the Python loop runs while
`cur and steps < 1000`; `not cur.parent_id` is Python truthiness). -/
def walkExtends (blocks : List (String × Block)) (target : String) :
    Option Block → Nat → Bool
  | none, _ => false
  | some _, 0 => false
  | some cur, fuel + 1 =>
    if cur.id = target then true
    else
      match cur.parent_id with
      | none => false
      | some pid => if pid.isEmpty then false else
          walkExtends blocks target (dictGet blocks pid) fuel

/-- Replica._extends_locked: vacuously true without a lock, else the
bounded parent walk looking for the locked block id. -/
def extendsLocked (blocks : List (String × Block)) (locked : Option QC) (block : Block) :
    Bool :=
  match locked with
  | none => true
  | some qc => walkExtends blocks qc.block_id (some block) 1000

/-- Replica._tip_block: the first stored block of maximal height (dict
iteration follows insertion order). -/
def tipBlock (blocks : List (String × Block)) : Option Block :=
  match blocks with
  | [] => none
  | _ =>
    let hmax := (blocks.map (fun e => e.2.height)).foldl max 0
    (blocks.find? (fun e => e.2.height == hmax)).map Prod.snd

/-- Replica.make_block: height and parent id from the optional parent;
justify_qc_id set from high_qc when present; `ts` is the now_ms()
timestamp the Block dataclass defaults. -/
def makeBlock (node_id : String) (high_qc : Option QC) (parent : Option Block)
    (view : Nat) (payload : String) (ts : Nat) : Block :=
  let parent_id := parent.map (fun b => b.id)
  let height := match parent with | some b => b.height + 1 | none => 0
  Block.make height parent_id node_id payload view (high_qc.map qcId) ts

/-- Replica.on_propose: store the block, skip if already voted in this
view (Python truthiness on the dict lookup) or if the block does not
extend the lock; otherwise sign, emit VOTE_SENT, send the vote to the
view leader, and record the view in voted_in_view. -/
def onPropose (p : RParams) (s : RState) (block : Block) : RState × List Out :=
  let s1 := { s with blocks := dictSet s.blocks block.id block }
  if truthyOptStr (dictGetN s1.voted_in_view block.view) then (s1, [])
  else if !extendsLocked s1.blocks s1.locked_qc block then (s1, [])
  else
    let voteStr := block.id ++ ":" ++ toString block.view
    let vote : Vote :=
      { block_id := block.id, voter := p.node_id, view := block.view,
        sig := p.sign p.sk voteStr }
    let leader := leaderOf p.all_ids block.view
    ({ s1 with voted_in_view := dictSetN s1.voted_in_view block.view block.id },
     [Out.event (Event.voteSent block.view block.id leader),
      Out.send leader (Msg.voteMsg p.node_id vote)])

/-- Replica.on_vote (core/node.py): leader check, public-key lookup
(Python truthiness), signature verification with an ERROR event on
failure, per-voter deduplication, accumulation, and QC formation once the
accumulator reaches qc_threshold (broadcast the QC, adopt it as high_qc,
lock a synthesized QC on the certified block's parent when the parent is
known, emit QC_FORMED, advance the view). -/
def onVote (p : RParams) (s : RState) (vote : Vote) : RState × List Out :=
  if leaderOf p.all_ids vote.view ≠ p.node_id then (s, [])
  else
    let vk := (dictGet p.pubkeys vote.voter).getD ""
    if vk.isEmpty then (s, [])
    else if !p.verify vk (vote.block_id ++ ":" ++ toString vote.view) vote.sig then
      (s, [Out.event (Event.errorEv ("Invalid signature from " ++ vote.voter))])
    else
      let lst := (dictGet s.votes_collected vote.block_id).getD []
      if vote.voter ∈ lst.map (fun v => v.voter) then (s, [])
      else
        let lst1 := lst ++ [vote]
        let s1 := { s with votes_collected := dictSet s.votes_collected vote.block_id lst1 }
        let outs1 := [Out.event (Event.voteRcvd vote.view vote.block_id vote.voter lst1.length)]
        if lst1.length < p.qc_threshold then (s1, outs1)
        else
          let signer_ids := lst1.map (fun v => v.voter)
          let signatures := lst1.map (fun v => v.sig)
          let qc : QC :=
            { block_id := vote.block_id, signer_ids := signer_ids,
              signatures := signatures, view := vote.view }
          let parent : Option Block :=
            match dictGet s1.blocks qc.block_id with
            | none => none
            | some blk =>
              match blk.parent_id with
              | none => none
              | some pid => if pid.isEmpty then none else dictGet s1.blocks pid
          let locked1 : Option QC :=
            match parent with
            | some pb => some { block_id := pb.id, signer_ids := signer_ids,
                                signatures := signatures, view := vote.view }
            | none => s1.locked_qc
          ({ s1 with high_qc := some qc, locked_qc := locked1,
                     current_view := s1.current_view + 1 },
           outs1 ++ [Out.bcast (Msg.qcMsg p.node_id qc),
                     Out.event (Event.qcFormed vote.view vote.block_id signer_ids.length)])

/-- The signature-counting loop at the top of Replica.on_qc: zip signer
ids with signatures and count the pairs whose key is registered (truthy)
and whose signature verifies. -/
def countValid (p : RParams) (qc : QC) : Nat :=
  (qc.signer_ids.zip qc.signatures).countP (fun pr =>
    match dictGet p.pubkeys pr.1 with
    | none => false
    | some vk => !vk.isEmpty && p.verify vk (qc.block_id ++ ":" ++ toString qc.view) pr.2)

/-- The `blocks.get(blk.parent_id) if blk.parent_id else None` pattern
(Python truthiness on the optional id). -/
def parentLookup (blocks : List (String × Block)) (b : Block) : Option Block :=
  match b.parent_id with
  | none => none
  | some pid => if pid.isEmpty then none else dictGet blocks pid

/-- The `parent` / `grandparent` lookup pair in on_qc: parent of the
block, then parent of the parent, each through `parentLookup`. -/
def grandparentOf (blocks : List (String × Block)) (b : Block) : Option Block :=
  match parentLookup blocks b with
  | none => none
  | some pb => parentLookup blocks pb

/-- Replica.on_qc: drop silently when fewer than qc_threshold signatures
verify; otherwise adopt the QC as high_qc and apply the three-chain rule:
if block, parent and grandparent are all stored and the grandparent is
uncommitted, append it to committed and emit COMMIT. -/
def onQC (p : RParams) (s : RState) (qc : QC) : RState × List Out :=
  if countValid p qc < p.qc_threshold then (s, [])
  else
    let s1 := { s with high_qc := some qc }
    match dictGet s1.blocks qc.block_id with
    | none => (s1, [])
    | some blk =>
      match grandparentOf s1.blocks blk with
      | none => (s1, [])
      | some g =>
        if g.id ∈ s1.committed then (s1, [])
        else ({ s1 with committed := s1.committed ++ [g.id] },
              [Out.event (Event.commitEv g.id g.height g.proposer)])

/-- Replica.on_newview: buffer the carried QC under the incoming view;
if this replica is leader(v+1), adopt the buffered QC of maximal view
(first such, as Python's max) as high_qc — and as locked_qc when its
block is known — then advance to view v+1 if not already past it. -/
def onNewview (p : RParams) (s : RState) (v : Nat) (high : Option QC) : RState × List Out :=
  let s1 :=
    match high with
    | none => s
    | some q =>
        let buf1 := (dictGetN s.newview_buffer v).getD [] ++ [q]
        { s with newview_buffer := dictSetN s.newview_buffer v buf1 }
  if leaderOf p.all_ids (v + 1) ≠ p.node_id then (s1, [])
  else
    let s2 :=
      match (dictGetN s1.newview_buffer v).getD [] with
      | [] => s1
      | q0 :: rest =>
        let best := rest.foldl (fun b q => if q.view > b.view then q else b) q0
        let s2a := { s1 with high_qc := some best }
        if (dictGet s2a.blocks best.block_id).isSome then { s2a with locked_qc := some best }
        else s2a
    if s2.current_view ≤ v then ({ s2 with current_view := v + 1 }, []) else (s2, [])

/-- One iteration of Replica.propose_loop (core/node.py) when this
replica leads the current view: build a candidate on the local tip; if it
does not extend the lock, rebuild on the locked block (or the tip when no
lock); store, emit PROPOSED and broadcast.  `tp` is the now_ms() used in
the payload, `tb1`/`tb2` the Block timestamps of the first and (if
rebuilt) second make_block call. -/
def proposeStepCore (p : RParams) (s : RState) (tp tb1 tb2 : Nat) : RState × List Out :=
  if leaderOf p.all_ids s.current_view ≠ p.node_id then (s, [])
  else
    let parent := tipBlock s.blocks
    let payload := "tx_from_" ++ p.node_id ++ "_" ++ toString tp
    let cand := makeBlock p.node_id s.high_qc parent s.current_view payload tb1
    let block :=
      if extendsLocked s.blocks s.locked_qc cand then cand
      else
        let locked_block :=
          match s.locked_qc with
          | some qc => dictGet s.blocks qc.block_id
          | none => parent
        makeBlock p.node_id s.high_qc locked_block s.current_view payload tb2
    ({ s with blocks := dictSet s.blocks block.id block },
     [Out.event (Event.proposedEv s.current_view block.id block.height block.parent_id),
      Out.bcast (Msg.propose p.node_id s.current_view block)])

/-- Replica._timeout firing while the view is unchanged: broadcast
NEWVIEW carrying our high_qc and emit TIMEOUT; no state change. -/
def timeoutFire (p : RParams) (s : RState) : RState × List Out :=
  (s, [Out.bcast (Msg.newview p.node_id s.current_view s.high_qc),
       Out.event (Event.timeoutEv s.current_view)])

/-- Replica.on_message dispatch. -/
def onMessage (p : RParams) (s : RState) (m : Msg) : RState × List Out :=
  match m with
  | .propose _ _ b => onPropose p s b
  | .voteMsg _ v => onVote p s v
  | .qcMsg _ q => onQC p s q
  | .newview _ v h => onNewview p s v h

/-- The things that can happen to a replica: a message delivery, a
propose-loop tick, or the view timer firing. -/
inductive Act where
  | deliver (m : Msg)
  | tick (tp tb1 tb2 : Nat)
  | timerFire
deriving DecidableEq, Repr

/-- Apply one act. -/
def applyAct (p : RParams) (s : RState) : Act → RState × List Out
  | .deliver m => onMessage p s m
  | .tick tp tb1 tb2 => proposeStepCore p s tp tb1 tb2
  | .timerFire => timeoutFire p s

/-- Run a sequence of acts, accumulating the outputs. -/
def runActs (p : RParams) (s : RState) : List Act → RState × List Out
  | [] => (s, [])
  | a :: rest =>
    let r1 := applyAct p s a
    let r2 := runActs p r1.1 rest
    (r2.1, r1.2 ++ r2.2)

/-- Whether an output is a VOTE sent in view `v`. -/
def isVoteInView (v : Nat) : Out → Bool
  | .send _ (.voteMsg _ vt) => vt.view == v
  | _ => false

/-- Number of VOTE messages in view `v` among the outputs. -/
def countVotesInView (outs : List Out) (v : Nat) : Nat :=
  outs.countP (isVoteInView v)

/-- In-process well-formedness of an act: every Block travelling in a
PROPOSE was built by the dataclass constructor, so its id is a 64-char
SHA-256 hex digest and in particular non-empty. -/
def goodAct : Act → Bool
  | .deliver (.propose _ _ b) => !b.id.isEmpty
  | _ => true

/-! ## Learner model (core/learner.py) -/

/-- Learner thresholds (ints from the config; comparisons against a
Python `len(...)` are over the integers). -/
structure LParams where
  name : String
  q_fast : Int
  q_commit : Int

/-- Learner mutable state. -/
structure LState where
  committed : List String
deriving DecidableEq, Repr

/-- Learner.run body for one dequeued message: non-QC messages are
skipped; the fast rule and then the commit rule each append the block id
and emit their event when the signer count crosses the threshold and the
block id is not yet recorded. -/
def learnerStep (p : LParams) (s : LState) (m : Msg) : LState × List Out :=
  match m with
  | .qcMsg _ qc =>
    let n : Int := qc.signer_ids.length
    let r1 : LState × List Out :=
      if n ≥ p.q_fast ∧ qc.block_id ∉ s.committed then
        ({ committed := s.committed ++ [qc.block_id] },
         [Out.event (Event.learnerFast p.name qc.block_id qc.signer_ids.length)])
      else (s, [])
    let r2 : LState × List Out :=
      if n ≥ p.q_commit ∧ qc.block_id ∉ r1.1.committed then
        ({ committed := r1.1.committed ++ [qc.block_id] },
         [Out.event (Event.learnerSafe p.name qc.block_id qc.signer_ids.length)])
      else (r1.1, [])
    (r2.1, r1.2 ++ r2.2)
  | _ => (s, [])

/-- Run the learner loop over a list of delivered messages. -/
def runLearner (p : LParams) (s : LState) : List Msg → LState × List Out
  | [] => (s, [])
  | m :: rest =>
    let r1 := learnerStep p s m
    let r2 := runLearner p r1.1 rest
    (r2.1, r1.2 ++ r2.2)

/-! ## Legacy simplified replica (node.py, utils.py) -/

/-- The QC dataclass of utils.py: a single simulated combined signature. -/
structure SQC where
  block_id : String
  signer_ids : List String
  combined_sig : String
  view : Nat
deriving DecidableEq, Repr

/-- QC.id() from utils.py. -/
def sqcId (qc : SQC) : String :=
  sha256hex (qc.block_id ++ ":" ++ String.intercalate "," qc.signer_ids ++ ":" ++
    qc.combined_sig ++ ":" ++ toString qc.view)

/-- The slice of legacy Replica state that its propose loop reads and
writes. -/
structure SState where
  blocks : List (String × Block)
  high_qc : Option SQC
  current_view : Nat
deriving DecidableEq, Repr

/-- Legacy Replica.make_block: parent is the first stored block of
maximal height, height one above it; a fresh root when no blocks are
stored. -/
def makeBlockSimple (node_id : String) (blocks : List (String × Block)) (view : Nat)
    (payload : String) (ts : Nat) : Block :=
  match blocks with
  | [] => Block.make 0 none node_id payload view none ts
  | _ =>
    let hmax := (blocks.map (fun e => e.2.height)).foldl max 0
    match (blocks.find? (fun e => e.2.height == hmax)).map Prod.snd with
    | some b => Block.make (hmax + 1) (some b.id) node_id payload view none ts
    | none => Block.make 0 none node_id payload view none ts

/-- One iteration of legacy Replica.propose_loop when this replica leads:
build a block (justify_qc_id patched in from high_qc after construction)
and store it; a Byzantine replica additionally builds a second block with
the payload suffixed "_alt" — whose parent is now the first block, the
new tip — stores it and broadcasts both PROPOSEs; an honest replica
broadcasts only the one. -/
def proposeStepSimple (node_id : String) (all_ids : List String) (is_byz : Bool)
    (s : SState) (tp tb1 tb2 : Nat) : SState × List Out :=
  if leaderOf all_ids s.current_view ≠ node_id then (s, [])
  else
    let payload := "tx_from_" ++ node_id ++ "_" ++ toString tp
    let block0 := makeBlockSimple node_id s.blocks s.current_view payload tb1
    let block := { block0 with justify_qc_id := s.high_qc.map sqcId }
    let s1 := { s with blocks := dictSet s.blocks block.id block }
    if is_byz then
      let block2 := makeBlockSimple node_id s1.blocks s.current_view (payload ++ "_alt") tb2
      let s2 := { s1 with blocks := dictSet s1.blocks block2.id block2 }
      (s2, [Out.bcast (Msg.propose node_id s.current_view block),
            Out.bcast (Msg.propose node_id s.current_view block2)])
    else
      (s1, [Out.bcast (Msg.propose node_id s.current_view block)])

/-! ## Orchestrator start (app.py start_simulation) -/

/-- The numeric configuration fields start_simulation reads; `none` means
the key is absent so the coded default applies.  Python floats are
modelled as rationals. -/
structure SimConfig where
  replicas : Option Int
  fParam : Option Int
  qc_threshold : Option Int
  drop_rate : Option Rat
  min_delay : Option Rat
  max_delay : Option Rat
  propose_interval : Option Rat
  duration : Option Rat

/-- What start_simulation computes from the numeric config before
spawning tasks. -/
structure StartResult where
  n : Int
  f : Int
  warned : Bool
  statuses : List String
deriving DecidableEq, Repr

/-- start_simulation's numeric-config handling: each field is read with
its default, a WARN is broadcast exactly when n < 3f+1, and the function
unconditionally proceeds to construct the network, replicas and learners
and to broadcast the running status — there is no validation or rejection
path for any numeric field. -/
def startSim (cfg : SimConfig) : StartResult :=
  let n := cfg.replicas.getD 7
  let f := cfg.fParam.getD 2
  let w : Bool := decide (n < 3 * f + 1)
  { n := n, f := f, warned := w,
    statuses := ["starting"] ++ (if w then ["warn"] else []) ++ ["running"] }

/-! ## Spec-side formulas and chain characterization -/

/-- The §6 content-hashing formula, written from the spec's own words:
SHA-256 over height ":" parent_id_or_None ":" proposer ":" payload ":"
view ":" timestamp, with an absent parent rendered as the literal string
"None" and fields joined by single colons with no padding. -/
def specBlockId (height : Nat) (parent_id : Option String) (proposer payload : String)
    (view timestamp : Nat) : String :=
  sha256hex (String.intercalate ":"
    [toString height, (match parent_id with | none => "None" | some s => s),
     proposer, payload, toString view, toString timestamp])

/-- k-fold parent dereference through the local block map, with the same
Python-truthiness guard on parent ids as the extends-locked walk. -/
def chainNth (blocks : List (String × Block)) (b : Block) : Nat → Option Block
  | 0 => some b
  | k + 1 =>
    match chainNth blocks b k with
    | none => none
    | some c => parentLookup blocks c

/-- The VOTE messages among a handler's outputs. -/
def voteSends (outs : List Out) : List Out :=
  outs.filter (fun o => match o with | .send _ (.voteMsg _ _) => true | _ => false)

/-- Whether an output broadcasts a QC for the given block id. -/
def isQCBcastFor (bid : String) : Out → Bool
  | .bcast (.qcMsg _ qc) => qc.block_id == bid
  | _ => false

/-- Whether an output broadcasts a PROPOSE. -/
def isProposeBcast : Out → Bool
  | .bcast (.propose _ _ _) => true
  | _ => false

/-- Whether an output is an ERROR event. -/
def isErrorEvent : Out → Bool
  | .event (.errorEv _) => true
  | _ => false

/-- Failure of the three-chain condition in on_qc: the certified block is
unknown locally, or its grandparent is unknown, or the grandparent is
already committed. -/
def threeChainFail (s : RState) (qc : QC) : Prop :=
  match dictGet s.blocks qc.block_id with
  | none => True
  | some blk =>
    match grandparentOf s.blocks blk with
    | none => True
    | some g => g.id ∈ s.committed

/-- Potential used by the one-vote-per-view invariant: 1 exactly when a
truthy vote record exists for view v. -/
def votedFlag (s : RState) (v : Nat) : Nat :=
  if truthyOptStr (dictGetN s.voted_in_view v) then 1 else 0

/-! ## Concrete instances for counterexamples and witnesses -/

/-- Signature oracle accepting everything (exercises the post-verification
handler logic). -/
def allValid : String → String → String → Bool := fun _ _ _ => true

/-- Signature oracle rejecting everything. -/
def noneValid : String → String → String → Bool := fun _ _ _ => false

/-- Three replicas, R0 the leader of view 0, threshold 2, with the given
verification oracle. -/
def pR0 (vf : String → String → String → Bool) : RParams :=
  { node_id := "R0", sk := "sk0", all_ids := ["R0", "R1", "R2"],
    pubkeys := [("R0", "k0"), ("R1", "k1"), ("R2", "k2")], f := 0,
    qc_threshold := 2, is_byzantine := false, verify := vf,
    sign := fun sk m => sk ++ "|" ++ m }

/-- A vote for block "B" in view 0 from the given replica. -/
def voteFor (who : String) : Vote :=
  { block_id := "B", voter := who, view := 0, sig := "sig" }

/-- Three successive valid votes for the same block: the third arrives
after the quorum certificate has been formed from the first two. -/
def c4Acts : List Act :=
  [Act.deliver (Msg.voteMsg "R1" (voteFor "R1")),
   Act.deliver (Msg.voteMsg "R2" (voteFor "R2")),
   Act.deliver (Msg.voteMsg "R0" (voteFor "R0"))]

/-- The leader state after a QC on "B" has been formed from R1 and R2
(threshold 2): the accumulator still holds both votes. -/
def sAfterQC : RState :=
  { initState with
    votes_collected := [("B", [voteFor "R1", voteFor "R2"])],
    high_qc := some { block_id := "B", signer_ids := ["R1", "R2"],
                      signatures := ["sig", "sig"], view := 0 },
    current_view := 1 }

/-- A QC carrying two signatures. -/
def qcBad : QC :=
  { block_id := "B", signer_ids := ["R0", "R1"], signatures := ["s0", "s1"], view := 0 }

/-- A QC with three signers. -/
def qcThree : QC :=
  { block_id := "b2", signer_ids := ["R0", "R1", "R2"],
    signatures := ["s0", "s1", "s2"], view := 0 }

/-- Configuration with replicas = 0 and f = 0, everything else defaulted. -/
def cfgZero : SimConfig :=
  { replicas := some 0, fParam := some 0, qc_threshold := none, drop_rate := none,
    min_delay := none, max_delay := none, propose_interval := none, duration := none }

/-- A single replica R0 with the Byzantine flag set (core parameters). -/
def pByzCore : RParams :=
  { node_id := "R0", sk := "sk0", all_ids := ["R0"], pubkeys := [("R0", "k0")],
    f := 0, qc_threshold := 1, is_byzantine := true, verify := allValid,
    sign := fun sk m => sk ++ "|" ++ m }

/-- A stored root block with symbolic id "b0". -/
def blkRoot : Block :=
  { height := 0, parent_id := none, proposer := "RX", payload := "p", view := 0,
    justify_qc_id := none, timestamp := 0, id := "b0" }

/-- Child of blkRoot with symbolic id "b1". -/
def blkB : Block :=
  { height := 1, parent_id := some "b0", proposer := "RX", payload := "p1", view := 1,
    justify_qc_id := none, timestamp := 0, id := "b1" }

/-- Child of blkB with symbolic id "b2". -/
def blkC : Block :=
  { height := 2, parent_id := some "b1", proposer := "RX", payload := "p2", view := 2,
    justify_qc_id := none, timestamp := 0, id := "b2" }

/-- A state storing the three-block chain b0 ← b1 ← b2. -/
def sChain : RState :=
  { initState with blocks := [("b0", blkRoot), ("b1", blkB), ("b2", blkC)] }

/-- A QC locking an id absent from every store below. -/
def qcLock : QC := { block_id := "LOCK", signer_ids := [], signatures := [], view := 0 }

/-- A state holding one root block and a lock on the unknown id "LOCK". -/
def sLocked : RState :=
  { initState with blocks := [("b0", blkRoot)], locked_qc := some qcLock }

/-- A state that already voted in view 0. -/
def sVoted : RState :=
  { initState with voted_in_view := [(0, "zz")] }

/-! ## Dictionary lemmas -/

theorem dictGet_dictSet_self {β : Type} (d : List (String × β)) (k : String) (v : β) :
    dictGet (dictSet d k v) k = some v := by
  induction d with
  | nil => simp [dictSet, dictGet]
  | cons e rest ih =>
    by_cases h : e.1 = k
    · simp [dictSet, dictGet, h]
    · simp [dictSet, dictGet, h, ih]

theorem dictGetN_dictSetN_self {β : Type} (d : List (Nat × β)) (k : Nat) (v : β) :
    dictGetN (dictSetN d k v) k = some v := by
  induction d with
  | nil => simp [dictSetN, dictGetN]
  | cons e rest ih =>
    by_cases h : e.1 = k
    · simp [dictSetN, dictGetN, h]
    · simp [dictSetN, dictGetN, h, ih]

theorem dictGetN_dictSetN_ne {β : Type} (d : List (Nat × β)) (k k1 : Nat) (v : β)
    (h : k1 ≠ k) : dictGetN (dictSetN d k v) k1 = dictGetN d k1 := by
  induction d with
  | nil => simp [dictSetN, dictGetN, h, Ne.symm h]
  | cons e rest ih =>
    by_cases he : e.1 = k
    · simp [dictSetN, dictGetN, he, Ne.symm h]
    · by_cases he1 : e.1 = k1 <;> simp [dictSetN, dictGetN, he, he1, ih, h]

theorem mem_keys_dictSetN {β : Type} (d : List (Nat × β)) (k a : Nat) (v : β) :
    a ∈ (dictSetN d k v).map Prod.fst ↔ a ∈ d.map Prod.fst ∨ a = k := by
  induction d with
  | nil => simp [dictSetN]
  | cons e rest ih =>
    by_cases h : e.1 = k
    · simp [dictSetN, h]
      tauto
    · simp [dictSetN, h, ih]
      tauto

theorem keys_nodup_dictSetN {β : Type} (d : List (Nat × β)) (k : Nat) (v : β)
    (h : (d.map Prod.fst).Nodup) : ((dictSetN d k v).map Prod.fst).Nodup := by
  induction d with
  | nil => simp [dictSetN]
  | cons e rest ih =>
    rw [List.map_cons, List.nodup_cons] at h
    by_cases he : e.1 = k
    · simp only [dictSetN]
      rw [if_pos he, List.map_cons, List.nodup_cons, ← he]
      exact h
    · simp only [dictSetN]
      rw [if_neg he, List.map_cons, List.nodup_cons]
      refine ⟨?_, ih h.2⟩
      rw [mem_keys_dictSetN]
      push_neg
      exact ⟨h.1, he⟩

/-! ## Claim C7 -/

/-- Claim C7: every constructed Block's id equals the SHA-256 hex digest
of height ":" parent-or-None ":" proposer ":" payload ":" view ":"
timestamp (the spec §6 formula with "None" for an absent parent and
single-colon joins), and the fixture block (height 0, no parent, proposer
R0, payload "x", view 0, timestamp 0) hashes to the digest below. -/
theorem c7_block_id_formula :
    (∀ (h : Nat) (pid : Option String) (pr pl : String) (v t : Nat) (j : Option String),
        (Block.make h pid pr pl v j t).id = specBlockId h pid pr pl v t)
    ∧ (Block.make 0 none "R0" "x" 0 none 0).id
        = "13ffa18c8591daabc70870bc5aa7d2786a8537e4c8e5095c44260bf4c75caf32" := by
  constructor
  · intro h pid pr pl v t j
    cases pid <;>
      simp [Block.make, blockIdOf, specBlockId, pyOptStr, String.intercalate,
        String.intercalate.go, String.append_assoc]
  · decide

/-! ## Claim C8 -/

/-- Claim C8 counterexample: a configuration with replicas = 0 is not
rejected — start_simulation reads n = 0, warns (0 < 3·0+1), and still
reaches the running status; no rejection or validation path exists. -/
theorem c8_counterexample :
    cfgZero.replicas = some 0
    ∧ (startSim cfgZero).n = 0
    ∧ (startSim cfgZero).statuses = ["starting", "warn", "running"] := by decide

/-- Claim C8 amended: start_simulation validates no numeric field — every
configuration, including zero or negative integers, reaches the running
status; the only numeric check is the warning, emitted exactly when
n < 3f+1. -/
theorem c8_amended :
    ∀ cfg : SimConfig,
      "running" ∈ (startSim cfg).statuses
      ∧ ((startSim cfg).warned = true ↔ (startSim cfg).n < 3 * (startSim cfg).f + 1) := by
  intro cfg
  unfold startSim
  refine ⟨?_, by simp⟩
  by_cases h : (cfg.replicas.getD 7) < 3 * (cfg.fParam.getD 2) + 1 <;> simp [h]

/-! ## Claim C3 -/

/-- Claim C3: on_qc counts the carried signatures that verify under the
registered keys; below qc_threshold it changes nothing and emits nothing;
otherwise it adopts the QC as high_qc, and when the certified block, its
parent and its grandparent are all stored locally with the grandparent
uncommitted, it appends the grandparent id to committed and emits COMMIT;
in every other case committed is unchanged and nothing is emitted. -/
theorem c3_on_qc :
    ∀ (p : RParams) (s : RState) (qc : QC),
      (countValid p qc < p.qc_threshold → onQC p s qc = (s, []))
      ∧ (p.qc_threshold ≤ countValid p qc → (onQC p s qc).1.high_qc = some qc)
      ∧ (p.qc_threshold ≤ countValid p qc →
          ∀ blk g, dictGet s.blocks qc.block_id = some blk →
            grandparentOf s.blocks blk = some g →
            g.id ∉ s.committed →
            onQC p s qc
              = ({ s with high_qc := some qc, committed := s.committed ++ [g.id] },
                 [Out.event (Event.commitEv g.id g.height g.proposer)]))
      ∧ (p.qc_threshold ≤ countValid p qc → threeChainFail s qc →
          onQC p s qc = ({ s with high_qc := some qc }, [])) := by
  intro p s qc
  refine ⟨fun h => by simp [onQC, h], ?_, ?_, ?_⟩
  · intro h
    simp only [onQC, if_neg (not_lt.mpr h)]
    cases hb : dictGet s.blocks qc.block_id with
    | none => simp [hb]
    | some blk =>
      cases hg : grandparentOf s.blocks blk with
      | none => simp [hb, hg]
      | some g => by_cases hc : g.id ∈ s.committed <;> simp [hb, hg, hc]
  · intro h blk g hb hg hc
    simp only [onQC, if_neg (not_lt.mpr h)]
    simp [hb, hg, hc]
  · intro h hfail
    simp only [onQC, if_neg (not_lt.mpr h)]
    unfold threeChainFail at hfail
    cases hb : dictGet s.blocks qc.block_id with
    | none => simp [hb]
    | some blk =>
      simp only [hb] at hfail
      cases hg : grandparentOf s.blocks blk with
      | none => simp [hb, hg]
      | some g =>
        simp only [hg] at hfail
        simp [hb, hg, hfail]

/-- Claim C3 witness: on the stored chain b0 ← b1 ← b2, a QC on b2 with
enough valid signatures commits b0 and emits the COMMIT event. -/
theorem c3_witness :
    (pR0 allValid).qc_threshold ≤ countValid (pR0 allValid) qcThree
    ∧ onQC (pR0 allValid) sChain qcThree
        = ({ sChain with high_qc := some qcThree, committed := ["b0"] },
           [Out.event (Event.commitEv "b0" 0 "RX")]) :=
  ⟨by decide,
   (c3_on_qc (pR0 allValid) sChain qcThree).2.2.1 (by decide) blkC blkRoot
     (by decide) (by decide) (by decide)⟩

/-! ## Claim C5 -/

/-- Claim C5 counterexample: a QC whose signatures all fail verification
is dropped by on_qc with no state change and, contrary to the claim, no
ERROR event — the outputs are empty. -/
theorem c5_counterexample :
    countValid (pR0 noneValid) qcBad < (pR0 noneValid).qc_threshold
    ∧ onQC (pR0 noneValid) initState qcBad = (initState, [])
    ∧ (onQC (pR0 noneValid) initState qcBad).2.countP isErrorEvent = 0 := by decide

/-- Claim C5 amended: an invalid vote signature in on_vote emits an ERROR
event with the vote dropped and state unchanged, while a QC with fewer
than qc_threshold valid signatures in on_qc is dropped silently — state
unchanged but no event of any kind emitted. -/
theorem c5_amended :
    ∀ (p : RParams) (s : RState) (vote : Vote) (qc : QC),
      (leaderOf p.all_ids vote.view = p.node_id →
        ((dictGet p.pubkeys vote.voter).getD "").isEmpty = false →
        p.verify ((dictGet p.pubkeys vote.voter).getD "")
          (vote.block_id ++ ":" ++ toString vote.view) vote.sig = false →
        onVote p s vote
          = (s, [Out.event (Event.errorEv ("Invalid signature from " ++ vote.voter))]))
      ∧ (countValid p qc < p.qc_threshold → onQC p s qc = (s, [])) := by
  intro p s vote qc
  constructor
  · intro hl hk hv
    simp [onVote, hl, hk, hv]
  · intro h
    simp [onQC, h]

/-- Claim C5 amended, witness: a vote from R1 failing verification under
the rejecting oracle produces exactly the ERROR event, and the
two-signature QC under the same oracle is dropped silently. -/
theorem c5_witness :
    onVote (pR0 noneValid) initState (voteFor "R1")
      = (initState, [Out.event (Event.errorEv "Invalid signature from R1")])
    ∧ onQC (pR0 noneValid) initState qcBad = (initState, []) :=
  ⟨(c5_amended (pR0 noneValid) initState (voteFor "R1") qcBad).1
      (by decide) (by decide) (by decide),
   (c5_amended (pR0 noneValid) initState (voteFor "R1") qcBad).2 (by decide)⟩

/-! ## Claim C9 -/

/-- One learner step keeps the committed list duplicate-free: each branch
appends only a block id it has just checked to be absent. -/
theorem learnerStep_nodup (p : LParams) (s : LState) (m : Msg)
    (h : s.committed.Nodup) : (learnerStep p s m).1.committed.Nodup := by
  cases m with
  | propose sender v b => simpa [learnerStep] using h
  | voteMsg sender v => simpa [learnerStep] using h
  | newview sender v q => simpa [learnerStep] using h
  | qcMsg sender qc =>
    simp only [learnerStep]
    by_cases h1 : (qc.signer_ids.length : Int) ≥ p.q_fast ∧ qc.block_id ∉ s.committed
    · simp only [if_pos h1]
      by_cases h2 : (qc.signer_ids.length : Int) ≥ p.q_commit
          ∧ qc.block_id ∉ s.committed ++ [qc.block_id]
      · exact absurd h2.2 (by simp)
      · simp only [if_neg h2]
        simp [List.nodup_append, h, h1.2]
    · simp only [if_neg h1]
      by_cases h2 : (qc.signer_ids.length : Int) ≥ p.q_commit ∧ qc.block_id ∉ s.committed
      · simp only [if_pos h2]
        simp [List.nodup_append, h, h2.2]
      · simpa [if_neg h2] using h

/-- Running the learner keeps the committed list duplicate-free. -/
theorem runLearner_nodup (p : LParams) (msgs : List Msg) :
    ∀ s : LState, s.committed.Nodup → ((runLearner p s msgs).1.committed).Nodup := by
  induction msgs with
  | nil => intro s h; simpa [runLearner] using h
  | cons m rest ih =>
    intro s h
    simp only [runLearner]
    exact ih _ (learnerStep_nodup p s m h)

/-- Claim C9: a learner's committed list never contains duplicates, and a
QC whose signer count meets both thresholds on a not-yet-committed block
fires only the fast rule — the commit rule re-checks membership after the
fast branch recorded the block, so no LEARNER_SAFE event follows. -/
theorem c9_learner :
    (∀ (p : LParams) (msgs : List Msg),
        ((runLearner p { committed := [] } msgs).1.committed).Nodup)
    ∧ (∀ (p : LParams) (s : LState) (sender : String) (qc : QC),
        p.q_fast ≤ p.q_commit →
        p.q_fast ≤ (qc.signer_ids.length : Int) →
        p.q_commit ≤ (qc.signer_ids.length : Int) →
        qc.block_id ∉ s.committed →
        learnerStep p s (Msg.qcMsg sender qc)
          = ({ committed := s.committed ++ [qc.block_id] },
             [Out.event (Event.learnerFast p.name qc.block_id qc.signer_ids.length)])) := by
  constructor
  · intro p msgs
    exact runLearner_nodup p msgs _ (by simp)
  · intro p s sender qc hff hf hc hnotin
    have h1 : ((qc.signer_ids.length : Int) ≥ p.q_fast ∧ qc.block_id ∉ s.committed) :=
      ⟨hf, hnotin⟩
    simp [learnerStep, h1]

/-- Claim C9 witness: a three-signer QC against thresholds q_fast = 2 and
q_commit = 3 on an empty learner fires exactly the LEARNER_FAST event,
and the committed list stays duplicate-free. -/
theorem c9_witness :
    ((runLearner { name := "L", q_fast := 2, q_commit := 3 } { committed := [] }
        [Msg.qcMsg "R0" qcThree]).1.committed).Nodup
    ∧ learnerStep { name := "L", q_fast := 2, q_commit := 3 } { committed := [] }
        (Msg.qcMsg "R0" qcThree)
        = ({ committed := ["b2"] },
           [Out.event (Event.learnerFast "L" "b2" 3)]) :=
  ⟨c9_learner.1 { name := "L", q_fast := 2, q_commit := 3 } [Msg.qcMsg "R0" qcThree],
   c9_learner.2 { name := "L", q_fast := 2, q_commit := 3 } { committed := [] } "R0" qcThree
     (by decide) (by decide) (by decide) (by decide)⟩

/-! ## Claim C10 -/

/-- Claim C10: in the leader's propose loop, when the tip candidate does
not extend the lock and the locked block id is absent from the local
store, the replacement block is a fresh root — height 0, parent None —
and it is what gets proposed and broadcast. -/
theorem c10_fresh_root :
    ∀ (p : RParams) (s : RState) (tp tb1 tb2 : Nat) (qc : QC),
      s.locked_qc = some qc →
      dictGet s.blocks qc.block_id = none →
      extendsLocked s.blocks s.locked_qc
        (makeBlock p.node_id s.high_qc (tipBlock s.blocks) s.current_view
          ("tx_from_" ++ p.node_id ++ "_" ++ toString tp) tb1) = false →
      leaderOf p.all_ids s.current_view = p.node_id →
      (makeBlock p.node_id s.high_qc none s.current_view
          ("tx_from_" ++ p.node_id ++ "_" ++ toString tp) tb2).height = 0
      ∧ (makeBlock p.node_id s.high_qc none s.current_view
          ("tx_from_" ++ p.node_id ++ "_" ++ toString tp) tb2).parent_id = none
      ∧ (proposeStepCore p s tp tb1 tb2).2
          = [Out.event (Event.proposedEv s.current_view
               (makeBlock p.node_id s.high_qc none s.current_view
                 ("tx_from_" ++ p.node_id ++ "_" ++ toString tp) tb2).id 0 none),
             Out.bcast (Msg.propose p.node_id s.current_view
               (makeBlock p.node_id s.high_qc none s.current_view
                 ("tx_from_" ++ p.node_id ++ "_" ++ toString tp) tb2))] := by
  intro p s tp tb1 tb2 qc hlock hget hext hld
  refine ⟨rfl, rfl, ?_⟩
  have hldne : ¬(leaderOf p.all_ids s.current_view ≠ p.node_id) := by simp [hld]
  simp only [proposeStepCore]
  rw [if_neg hldne, hext, hlock]
  simp [hget, makeBlock, Block.make]

/-- Claim C10 witness: with one stored root, a lock on the unknown id
"LOCK" and R0 leading view 0, the replacement proposal is a fresh root. -/
theorem c10_witness :
    (makeBlock "R0" none none 0 "tx_from_R0_1" 3).height = 0
    ∧ (makeBlock "R0" none none 0 "tx_from_R0_1" 3).parent_id = none
    ∧ (proposeStepCore (pR0 allValid) sLocked 1 2 3).2
        = [Out.event (Event.proposedEv 0 (makeBlock "R0" none none 0 "tx_from_R0_1" 3).id 0 none),
           Out.bcast (Msg.propose "R0" 0 (makeBlock "R0" none none 0 "tx_from_R0_1" 3))] :=
  c10_fresh_root (pR0 allValid) sLocked 1 2 3 qcLock rfl (by decide) (by decide) (by decide)

/-! ## Claim C2 -/

/-- One unfolding of the extends-locked walk: check the current block's
id, then step to its parent through the store. -/
theorem walkExtends_succ (blocks : List (String × Block)) (t : String) (b : Block)
    (fuel : Nat) :
    walkExtends blocks t (some b) (fuel + 1)
      = if b.id = t then true else walkExtends blocks t (parentLookup blocks b) fuel := by
  by_cases h : b.id = t
  · simp [walkExtends, h]
  · cases hp : b.parent_id with
    | none => simp [walkExtends, h, parentLookup, hp]
    | some pid =>
      by_cases he : pid.isEmpty
      · simp [walkExtends, h, parentLookup, hp, he]
      · simp [walkExtends, h, parentLookup, hp, he]

/-- Shifting the chain walk one step when the parent is stored. -/
theorem chainNth_front (blocks : List (String × Block)) (b nxt : Block)
    (h : parentLookup blocks b = some nxt) :
    ∀ k, chainNth blocks b (k + 1) = chainNth blocks nxt k := by
  intro k
  induction k with
  | zero => simp [chainNth, h]
  | succ j ih =>
    show (match chainNth blocks b (j + 1) with
          | none => none
          | some c => parentLookup blocks c)
        = chainNth blocks nxt (j + 1)
    rw [ih]
    rfl

/-- The chain walk dies when the parent step fails. -/
theorem chainNth_none_front (blocks : List (String × Block)) (b : Block)
    (h : parentLookup blocks b = none) : ∀ k, chainNth blocks b (k + 1) = none := by
  intro k
  induction k with
  | zero => simp [chainNth, h]
  | succ j ih =>
    show (match chainNth blocks b (j + 1) with
          | none => none
          | some c => parentLookup blocks c)
        = none
    rw [ih]

/-- The bounded walk succeeds exactly when some ancestor within the fuel
bound carries the target id. -/
theorem walkExtends_iff_chain (blocks : List (String × Block)) (t : String) :
    ∀ (fuel : Nat) (b : Block),
      walkExtends blocks t (some b) fuel = true
        ↔ ∃ k, k < fuel ∧ ∃ c, chainNth blocks b k = some c ∧ c.id = t := by
  intro fuel
  induction fuel with
  | zero =>
    intro b
    simp [walkExtends]
  | succ n ih =>
    intro b
    rw [walkExtends_succ]
    by_cases h : b.id = t
    · simp only [if_pos h]
      constructor
      · intro _
        exact ⟨0, Nat.succ_pos n, b, rfl, h⟩
      · intro _
        trivial
    · rw [if_neg h]
      cases hp : parentLookup blocks b with
      | none =>
        simp only [walkExtends]
        constructor
        · intro hfalse
          exact absurd hfalse (by simp)
        · rintro ⟨k, hk, c, hc, hid⟩
          cases k with
          | zero =>
            rw [show chainNth blocks b 0 = some b from rfl] at hc
            cases hc
            exact absurd hid h
          | succ j =>
            rw [chainNth_none_front blocks b hp] at hc
            cases hc
      | some nxt =>
        rw [ih nxt]
        constructor
        · rintro ⟨k, hk, c, hc, hid⟩
          refine ⟨k + 1, Nat.succ_lt_succ hk, c, ?_, hid⟩
          rw [chainNth_front blocks b nxt hp]
          exact hc
        · rintro ⟨k, hk, c, hc, hid⟩
          cases k with
          | zero =>
            rw [show chainNth blocks b 0 = some b from rfl] at hc
            cases hc
            exact absurd hid h
          | succ j =>
            rw [chainNth_front blocks b nxt hp] at hc
            exact ⟨j, Nat.lt_of_succ_lt_succ hk, c, hc, hid⟩

/-- Claim C2: with no lock every block passes the extends-locked check; a
vote is only ever sent under a true extends-locked check over the updated
store; and for a locked replica the check succeeds exactly when the locked
block id appears on the proposed block's ancestor chain, reached within
1000 parent steps through the local block map. -/
theorem c2_lock_safety :
    (∀ (blocks : List (String × Block)) (b : Block), extendsLocked blocks none b = true)
    ∧ (∀ (p : RParams) (s : RState) (block : Block),
        voteSends (onPropose p s block).2 ≠ [] →
        extendsLocked (dictSet s.blocks block.id block) s.locked_qc block = true)
    ∧ (∀ (blocks : List (String × Block)) (qc : QC) (b : Block),
        extendsLocked blocks (some qc) b = true
          ↔ ∃ k, k < 1000 ∧ ∃ c, chainNth blocks b k = some c ∧ c.id = qc.block_id) := by
  refine ⟨fun blocks b => rfl, ?_, ?_⟩
  · intro p s block hne
    cases hB : extendsLocked (dictSet s.blocks block.id block) s.locked_qc block with
    | true => rfl
    | false =>
      exfalso
      apply hne
      by_cases hv : truthyOptStr (dictGetN s.voted_in_view block.view) <;>
        simp [onPropose, voteSends, hB, hv]
  · intro blocks qc b
    exact walkExtends_iff_chain blocks qc.block_id 1000 b

/-- Claim C2 witness: a block stored and voted for by a lock-free replica
passes the extends-locked check over the updated store. -/
theorem c2_witness :
    extendsLocked (dictSet initState.blocks blkRoot.id blkRoot) initState.locked_qc blkRoot
      = true :=
  c2_lock_safety.2.1 (pR0 allValid) initState blkRoot (by decide)

/-! ## Claim C4 -/

/-- Claim C4 counterexample: an honest leader with threshold 2, after
forming and broadcasting a QC for block "B" from the votes of R1 and R2,
receives one more valid vote (from R0, a new voter) for the same block
and forms and broadcasts a second QC for the same block_id, advancing the
view a second time; the accumulator still holds all three votes — nothing
was discarded. -/
theorem c4_counterexample :
    ((runActs (pR0 allValid) initState c4Acts).2.countP (isQCBcastFor "B") = 2)
    ∧ (runActs (pR0 allValid) initState c4Acts).1.current_view = 2
    ∧ dictGet (runActs (pR0 allValid) initState c4Acts).1.votes_collected "B"
        = some [voteFor "R1", voteFor "R2", voteFor "R0"] := by decide

/-- Claim C4 amended: the leader's accumulator is never cleared — votes
for a block stay in votes_collected after a QC forms, and every further
valid vote from a voter not yet in the accumulator, once the accumulator
length has reached qc_threshold, forms and broadcasts another QC for the
same block_id and advances the view again; only votes from voters already
present are ignored. -/
theorem c4_amended :
    ∀ (p : RParams) (s : RState) (vote : Vote),
      leaderOf p.all_ids vote.view = p.node_id →
      ((dictGet p.pubkeys vote.voter).getD "").isEmpty = false →
      p.verify ((dictGet p.pubkeys vote.voter).getD "")
        (vote.block_id ++ ":" ++ toString vote.view) vote.sig = true →
      vote.voter ∉ ((dictGet s.votes_collected vote.block_id).getD []).map
        (fun v => v.voter) →
      p.qc_threshold ≤ ((dictGet s.votes_collected vote.block_id).getD []).length + 1 →
      dictGet (onVote p s vote).1.votes_collected vote.block_id
          = some ((dictGet s.votes_collected vote.block_id).getD [] ++ [vote])
      ∧ (onVote p s vote).2.countP (isQCBcastFor vote.block_id) = 1
      ∧ (onVote p s vote).1.current_view = s.current_view + 1 := by
  intro p s vote hl hk hv hfresh hlen
  have hnl : ¬(((dictGet s.votes_collected vote.block_id).getD [] ++ [vote]).length
      < p.qc_threshold) := by
    rw [List.length_append]
    simpa using not_lt.mpr hlen
  simp only [onVote, hl, hk, hv]
  simp only [ne_eq, not_true_eq_false, if_false, Bool.not_true, Bool.false_eq_true,
    Bool.not_false, if_neg hfresh, if_neg hnl]
  refine ⟨?_, ?_, ?_⟩
  · exact dictGet_dictSet_self s.votes_collected vote.block_id _
  · simp [isQCBcastFor]
  · trivial

/-- Claim C4 amended, witness: in the post-QC leader state sAfterQC, the
late vote from R0 re-forms a QC for "B" and advances the view. -/
theorem c4_witness :
    dictGet (onVote (pR0 allValid) sAfterQC (voteFor "R0")).1.votes_collected "B"
        = some [voteFor "R1", voteFor "R2", voteFor "R0"]
    ∧ (onVote (pR0 allValid) sAfterQC (voteFor "R0")).2.countP (isQCBcastFor "B") = 1
    ∧ (onVote (pR0 allValid) sAfterQC (voteFor "R0")).1.current_view
        = sAfterQC.current_view + 1 :=
  c4_amended (pR0 allValid) sAfterQC (voteFor "R0")
    (by decide) (by decide) (by decide) (by decide) (by decide)

/-! ## Claim C6 -/

/-- Claim C6 (code bug): the core replica's propose loop never reads
is_byzantine — with the flag set it broadcasts exactly one PROPOSE, and
its behaviour is identical with the flag cleared; the second perturbed
block the claim (and spec §4.3) describes is produced only by the legacy
node.py replica, whose Byzantine propose step broadcasts two blocks, the
second with the payload suffixed "_alt". -/
theorem c6_byzantine_flag :
    ((proposeStepCore pByzCore initState 1 2 3).2.countP isProposeBcast = 1)
    ∧ ((proposeStepSimple "R0" ["R0"] true
          { blocks := [], high_qc := none, current_view := 0 } 1 2 3).2.countP
        isProposeBcast = 2)
    ∧ (∀ (p : RParams) (s : RState) (tp tb1 tb2 : Nat),
        proposeStepCore { p with is_byzantine := true } s tp tb1 tb2
          = proposeStepCore { p with is_byzantine := false } s tp tb1 tb2) :=
  ⟨by decide, by decide, fun p s tp tb1 tb2 => rfl⟩

/-! ## Claim C1 -/

/-- The voted flag is at most one. -/
theorem votedFlag_le_one (s : RState) (v : Nat) : votedFlag s v ≤ 1 := by
  by_cases h : truthyOptStr (dictGetN s.voted_in_view v) <;> simp [votedFlag, h]

/-- on_vote sends no VOTE message and leaves voted_in_view unchanged. -/
theorem onVote_frame (p : RParams) (s : RState) (vt : Vote) (v : Nat) :
    countVotesInView (onVote p s vt).2 v = 0
    ∧ (onVote p s vt).1.voted_in_view = s.voted_in_view := by
  unfold onVote
  by_cases h1 : leaderOf p.all_ids vt.view ≠ p.node_id
  · simp [h1, countVotesInView]
  · by_cases h2 : ((dictGet p.pubkeys vt.voter).getD "").isEmpty = true
    · simp [h1, h2, countVotesInView]
    · by_cases h3 : p.verify ((dictGet p.pubkeys vt.voter).getD "")
          (vt.block_id ++ ":" ++ toString vt.view) vt.sig = true
      · by_cases h4 : vt.voter ∈ ((dictGet s.votes_collected vt.block_id).getD []).map
            (fun x => x.voter)
        · simp [h1, h2, h3, h4, countVotesInView]
        · by_cases h5 : ((dictGet s.votes_collected vt.block_id).getD []).length + 1
              < p.qc_threshold
          · simp [h1, h2, h3, h4, h5, countVotesInView, isVoteInView]
          · simp [h1, h2, h3, h4, h5, countVotesInView, isVoteInView]
      · simp [h1, h2, h3, countVotesInView, isVoteInView]

/-- on_qc sends no VOTE message and leaves voted_in_view unchanged. -/
theorem onQC_frame (p : RParams) (s : RState) (qc : QC) (v : Nat) :
    countVotesInView (onQC p s qc).2 v = 0
    ∧ (onQC p s qc).1.voted_in_view = s.voted_in_view := by
  unfold onQC
  by_cases h1 : countValid p qc < p.qc_threshold
  · simp [h1, countVotesInView]
  · simp only [if_neg h1]
    cases hb : dictGet s.blocks qc.block_id with
    | none => simp [hb, countVotesInView]
    | some blk =>
      cases hg : grandparentOf s.blocks blk with
      | none => simp [hb, hg, countVotesInView]
      | some g =>
        by_cases hc : g.id ∈ s.committed <;>
          simp [hb, hg, hc, countVotesInView, isVoteInView]

/-- on_newview emits nothing at all. -/
theorem onNewview_out (p : RParams) (s : RState) (nv : Nat) (hq : Option QC) :
    (onNewview p s nv hq).2 = [] := by
  cases hq <;> simp only [onNewview] <;> (repeat' split) <;> rfl

/-- on_newview leaves voted_in_view unchanged. -/
theorem onNewview_voted (p : RParams) (s : RState) (nv : Nat) (hq : Option QC) :
    (onNewview p s nv hq).1.voted_in_view = s.voted_in_view := by
  cases hq <;> simp only [onNewview] <;> (repeat' split) <;> rfl

/-- The propose step sends no VOTE message and leaves voted_in_view
unchanged. -/
theorem proposeStepCore_frame (p : RParams) (s : RState) (tp tb1 tb2 v : Nat) :
    countVotesInView (proposeStepCore p s tp tb1 tb2).2 v = 0
    ∧ (proposeStepCore p s tp tb1 tb2).1.voted_in_view = s.voted_in_view := by
  unfold proposeStepCore
  by_cases h1 : leaderOf p.all_ids s.current_view ≠ p.node_id
  · simp [h1, countVotesInView]
  · rw [if_neg h1]
    simp [countVotesInView, isVoteInView]

/-- Single-step accounting for one-vote-per-view: the VOTE messages a
step emits in view v are bounded by the increase of the voted flag, and
the per-view vote record keeps duplicate-free keys. -/
theorem applyAct_vote_bound (p : RParams) (s : RState) (a : Act) (v : Nat)
    (hg : goodAct a = true) :
    countVotesInView (applyAct p s a).2 v + votedFlag s v
        ≤ votedFlag (applyAct p s a).1 v
    ∧ ((s.voted_in_view.map Prod.fst).Nodup →
        ((applyAct p s a).1.voted_in_view.map Prod.fst).Nodup) := by
  have flag_of_eq : ∀ s' : RState, s'.voted_in_view = s.voted_in_view →
      votedFlag s' v = votedFlag s v := by
    intro s' h
    unfold votedFlag
    rw [h]
  cases a with
  | timerFire =>
    refine ⟨?_, fun h => h⟩
    simp [applyAct, timeoutFire, countVotesInView, isVoteInView]
  | tick tp tb1 tb2 =>
    have hf := proposeStepCore_frame p s tp tb1 tb2 v
    have he : applyAct p s (Act.tick tp tb1 tb2) = proposeStepCore p s tp tb1 tb2 := rfl
    rw [he, hf.1, flag_of_eq _ hf.2, hf.2]
    exact ⟨by omega, fun h => h⟩
  | deliver m =>
    cases m with
    | voteMsg sender vt =>
      have hf := onVote_frame p s vt v
      have he : applyAct p s (Act.deliver (Msg.voteMsg sender vt)) = onVote p s vt := rfl
      rw [he, hf.1, flag_of_eq _ hf.2, hf.2]
      exact ⟨by omega, fun h => h⟩
    | qcMsg sender q =>
      have hf := onQC_frame p s q v
      have he : applyAct p s (Act.deliver (Msg.qcMsg sender q)) = onQC p s q := rfl
      rw [he, hf.1, flag_of_eq _ hf.2, hf.2]
      exact ⟨by omega, fun h => h⟩
    | newview sender nv hq =>
      have he : applyAct p s (Act.deliver (Msg.newview sender nv hq)) = onNewview p s nv hq :=
        rfl
      rw [he, onNewview_out, onNewview_voted, flag_of_eq _ (onNewview_voted p s nv hq)]
      exact ⟨by simp [countVotesInView], fun h => h⟩
    | propose sender w b =>
      have hgood : b.id.isEmpty = false := by simpa [goodAct] using hg
      have he : applyAct p s (Act.deliver (Msg.propose sender w b)) = onPropose p s b := rfl
      rw [he]
      by_cases hv : truthyOptStr (dictGetN s.voted_in_view b.view) = true
      · have hstep : onPropose p s b = ({ s with blocks := dictSet s.blocks b.id b }, []) := by
          simp [onPropose, hv]
        rw [hstep]
        refine ⟨?_, fun h => h⟩
        simp [countVotesInView, votedFlag]
      · have hv' : truthyOptStr (dictGetN s.voted_in_view b.view) = false := by
          simpa using hv
        by_cases hext : extendsLocked (dictSet s.blocks b.id b) s.locked_qc b = true
        · have hstep : onPropose p s b
              = ({ s with blocks := dictSet s.blocks b.id b, voted_in_view := dictSetN s.voted_in_view b.view b.id },
                 [Out.event (Event.voteSent b.view b.id (leaderOf p.all_ids b.view)),
                  Out.send (leaderOf p.all_ids b.view)
                    (Msg.voteMsg p.node_id
                      { block_id := b.id, voter := p.node_id, view := b.view,
                        sig := p.sign p.sk (b.id ++ ":" ++ toString b.view) })]) := by
            simp [onPropose, hv', hext]
          rw [hstep]
          constructor
          · by_cases hvv : v = b.view
            · subst hvv
              have hf0 : votedFlag s b.view = 0 := by simp [votedFlag, hv']
              have hself := dictGetN_dictSetN_self s.voted_in_view b.view b.id
              have hf1 : votedFlag { s with blocks := dictSet s.blocks b.id b, voted_in_view := dictSetN s.voted_in_view b.view b.id } b.view = 1 := by
                simp [votedFlag, hself, truthyOptStr, hgood]
              rw [hf0, hf1]
              simp [countVotesInView, isVoteInView]
            · have hvv' : b.view ≠ v := Ne.symm hvv
              have hne := dictGetN_dictSetN_ne s.voted_in_view b.view v b.id hvv
              have hfe : votedFlag { s with blocks := dictSet s.blocks b.id b, voted_in_view := dictSetN s.voted_in_view b.view b.id } v = votedFlag s v := by
                simp [votedFlag, hne]
              rw [hfe]
              simp [countVotesInView, isVoteInView, hvv']
          · intro h
            exact keys_nodup_dictSetN s.voted_in_view b.view b.id h
        · have hext' : extendsLocked (dictSet s.blocks b.id b) s.locked_qc b = false := by
            simpa using hext
          have hstep : onPropose p s b
              = ({ s with blocks := dictSet s.blocks b.id b }, []) := by
            simp [onPropose, hv', hext']
          rw [hstep]
          refine ⟨?_, fun h => h⟩
          simp [countVotesInView, votedFlag]

/-- Run-level accounting: the VOTE messages a run emits in view v are
bounded by the change in the voted flag, and key duplicate-freeness is
preserved. -/
theorem runActs_vote_bound (p : RParams) (acts : List Act) (v : Nat) :
    ∀ s : RState, acts.all goodAct = true →
      countVotesInView (runActs p s acts).2 v + votedFlag s v
          ≤ votedFlag (runActs p s acts).1 v
      ∧ ((s.voted_in_view.map Prod.fst).Nodup →
          ((runActs p s acts).1.voted_in_view.map Prod.fst).Nodup) := by
  induction acts with
  | nil =>
    intro s h
    exact ⟨by simp [runActs, countVotesInView], fun hh => by simpa [runActs] using hh⟩
  | cons a rest ih =>
    intro s h
    rw [List.all_cons, Bool.and_eq_true] at h
    have h1 := applyAct_vote_bound p s a v h.1
    have h2 := ih (applyAct p s a).1 h.2
    constructor
    · have hsplit : countVotesInView (runActs p s (a :: rest)).2 v
          = countVotesInView (applyAct p s a).2 v
            + countVotesInView (runActs p (applyAct p s a).1 rest).2 v := by
        simp [runActs, countVotesInView, List.countP_append]
      have hst : (runActs p s (a :: rest)).1 = (runActs p (applyAct p s a).1 rest).1 := by
        simp [runActs]
      rw [hsplit, hst]
      have ha := h1.1
      have hb := h2.1
      omega
    · intro hh
      have hst : (runActs p s (a :: rest)).1 = (runActs p (applyAct p s a).1 rest).1 := by
        simp [runActs]
      rw [hst]
      exact h2.2 (h1.2 hh)

/-- Claim C1: from the initial state, over any sequence of deliveries,
propose ticks and timer firings whose PROPOSE blocks carry well-formed
(non-empty) ids, the replica sends at most one VOTE in any view and
voted_in_view keeps at most one record per view (duplicate-free keys);
moreover on_propose with an existing record for the block's view only
stores the block and returns without voting. -/
theorem c1_one_vote_per_view :
    (∀ (p : RParams) (acts : List Act) (v : Nat),
        acts.all goodAct = true →
        countVotesInView (runActs p initState acts).2 v ≤ 1
        ∧ (((runActs p initState acts).1.voted_in_view.map Prod.fst).Nodup))
    ∧ (∀ (p : RParams) (s : RState) (block : Block),
        truthyOptStr (dictGetN s.voted_in_view block.view) = true →
        onPropose p s block = ({ s with blocks := dictSet s.blocks block.id block }, [])) := by
  constructor
  · intro p acts v h
    have hb := runActs_vote_bound p acts v initState h
    constructor
    · have h0 : votedFlag initState v = 0 := by
        simp [votedFlag, initState, dictGetN, truthyOptStr]
      have h1 := hb.1
      have h2 := votedFlag_le_one (runActs p initState acts).1 v
      omega
    · exact hb.2 (by simp [initState])
  · intro p s block hv
    simp [onPropose, hv]

/-- Claim C1 witness: delivering the same view-0 proposal twice yields at
most one VOTE in view 0 with duplicate-free vote-record keys, and a
replica that already voted in view 0 ignores a new view-0 proposal. -/
theorem c1_witness :
    (countVotesInView (runActs (pR0 allValid) initState
        [Act.deliver (Msg.propose "R1" 0 blkRoot),
         Act.deliver (Msg.propose "R1" 0 blkRoot)]).2 0 ≤ 1
      ∧ (((runActs (pR0 allValid) initState
        [Act.deliver (Msg.propose "R1" 0 blkRoot),
         Act.deliver (Msg.propose "R1" 0 blkRoot)]).1.voted_in_view.map Prod.fst).Nodup))
    ∧ onPropose (pR0 allValid) sVoted blkRoot
        = ({ sVoted with blocks := dictSet sVoted.blocks blkRoot.id blkRoot }, []) :=
  ⟨c1_one_vote_per_view.1 (pR0 allValid)
      [Act.deliver (Msg.propose "R1" 0 blkRoot),
       Act.deliver (Msg.propose "R1" 0 blkRoot)] 0 (by decide),
   c1_one_vote_per_view.2 (pR0 allValid) sVoted blkRoot (by decide)⟩

end FlexibleBFT
